import Mathlib

/-!
Verification of the dual-model SPARQL chain of the coptic_metadata_viewer
repository (streamlit_app/app.py, notebooks/qa_llm_test.py, app.py).

Strings are modelled as `List Char`.  The Python string primitives used by
the code (`strip`, `replace`, `upper`, `lower`, `find`, `startswith`,
slicing, `join`) are embedded below; `Char.toUpper`/`Char.toLower` agree
with Python on the ASCII range, which is all the code's checks depend on.
-/

namespace CopticViewer

/-- The backtick character, written by code point. -/
def backtick : Char := Char.ofNat 96

/-- The whitespace characters stripped by Python's `str.strip()`
(ASCII subset: space, tab, newline, carriage return, vertical tab, form feed). -/
def isPySpace (c : Char) : Bool :=
  c = ' ' || c = '\t' || c = '\n' || c = Char.ofNat 13 || c = Char.ofNat 11 || c = Char.ofNat 12

/-- Python `str.strip()`: drop leading whitespace, then trailing whitespace
(implemented via reversal, as `List.rdropWhile` is). -/
def pyStrip (s : List Char) : List Char :=
  ((s.dropWhile isPySpace).reverse.dropWhile isPySpace).reverse

/-- Helper for `pyReplace`, structurally recursive on a fuel argument.
When the fuel is at least the length of the string it scans the string left
to right, replacing each non-overlapping occurrence of `old` (assumed
non-empty, as in every call site of this development) by `new`. -/
def replaceAux (old new : List Char) : Nat → List Char → List Char
  | _, [] => []
  | 0, s => s
  | fuel + 1, c :: rest =>
    if old ≠ [] ∧ old.isPrefixOf (c :: rest) then
      new ++ replaceAux old new fuel (List.drop (old.length - 1) rest)
    else
      c :: replaceAux old new fuel rest

/-- Python `s.replace(old, new)` for non-empty `old`: replace non-overlapping
occurrences left to right. -/
def pyReplace (s old new : List Char) : List Char :=
  replaceAux old new s.length s

/-- Python `str.upper()` (ASCII behaviour). -/
def pyUpper (s : List Char) : List Char := s.map Char.toUpper

/-- Python `str.lower()` (ASCII behaviour). -/
def pyLower (s : List Char) : List Char := s.map Char.toLower

/-- Python `hay.find(need)`: index of the first occurrence, `none` for -1. -/
def strFind (hay need : List Char) : Option Nat :=
  if need.isPrefixOf hay then some 0
  else
    match hay with
    | [] => none
    | _ :: t => (strFind t need).map (· + 1)

/-- Python `need in hay` (substring containment). -/
def pyContains (hay need : List Char) : Bool := (strFind hay need).isSome

/-- Python `sep.join(xs)`. -/
def pyJoin (sep : List Char) : List (List Char) → List Char
  | [] => []
  | [x] => x
  | x :: y :: xs => x ++ sep ++ pyJoin sep (y :: xs)

/-- The cleanup line of `DualLLMSparqlChain._normalize_sparql`:
`query.strip().replace("```sparql", "").replace("```", "").replace("`", "")`. -/
def cleanupQuery (q : List Char) : List Char :=
  pyReplace (pyReplace (pyReplace (pyStrip q) "```sparql".data []) "```".data []) "`".data []

/-- `DualLLMSparqlChain._normalize_sparql`: cleanup, then prepend
`"SELECT * "` when the cleaned text starts (case-insensitively) with WHERE. -/
def normalizeSparql (q : List Char) : List Char :=
  let query := cleanupQuery q
  if "WHERE".data.isPrefixOf (pyUpper query) then "SELECT * ".data ++ query
  else query

/-- The recognized query-start keywords named by the spec's NormalizedQuery
invariant: SELECT, ASK, CONSTRUCT, DESCRIBE. -/
def startsWithQueryKeyword (q : List Char) : Bool :=
  "SELECT".data.isPrefixOf q || "ASK".data.isPrefixOf q ||
    "CONSTRUCT".data.isPrefixOf q || "DESCRIBE".data.isPrefixOf q

/-- A bound value in a SPARQL result row: a literal or a resource
identifier (IRI), as produced by the RDF library. -/
inductive RDFValue where
  | literal (s : List Char)
  | resource (uri : List Char)
deriving DecidableEq, Repr

/-- Python `str(v)` on a bound value: the lexical form of a literal, the raw
IRI text of a resource. -/
def pyStr : RDFValue → List Char
  | .literal s => s
  | .resource uri => uri

/-- The row formatting of `invoke` step 4:
`" | ".join(str(v) for v in row)`. -/
def formatRow (row : List RDFValue) : List Char :=
  pyJoin " | ".data (row.map pyStr)

/-- Modelled from the spec: spec section 4.4 describes a Result Formatter that,
for a resource identifier, attempts label resolution via the ordered
preference list preferred label, then name, then title, taking the first
non-empty value and falling back to the raw identifier.  No such lookup
exists in the repository code; this definition follows the spec's words so
the claimed behaviour can be compared with `formatRow`.  Labels are given as
an association list from (IRI, property) to value. -/
def specResolveValue (labels : List ((List Char × List Char) × List Char)) :
    RDFValue → List Char
  | .literal s => s
  | .resource uri =>
    let lookup := fun (prop : List Char) =>
      match labels.find? (fun e => e.1 = (uri, prop)) with
      | some e => if e.2 = [] then none else some e.2
      | none => none
    match lookup "prefLabel".data with
    | some v => v
    | none =>
      match lookup "name".data with
      | some v => v
      | none =>
        match lookup "title".data with
        | some v => v
        | none => uri

/-- The dictionary returned by `DualLLMSparqlChain.invoke`.  The `error` key
is only present on the executor-failure path, hence an `Option`; `result`
is `none` exactly when the Python dict holds `None`. -/
structure ChainResult where
  result : Option (List Char)
  error : Option (List Char)
  sparql_query : List Char
  rows : List (List Char)
deriving DecidableEq, Repr

/-- The injected collaborators of the chain: the SPARQL-generation model
chain, the graph query executor, and the question-answering model chain.
Each may fail, modelled by `Except` carrying the exception's message
(Python `str(e)`). -/
structure Collab where
  gen : List Char → Except (List Char) (List Char)
  execQ : List Char → Except (List Char) (List (List RDFValue))
  qa : List Char → List Char → Except (List Char) (List Char)

/-- `DualLLMSparqlChain.invoke`, instrumented with the number of calls made
to the generation model and to the question-answering model.  A raised
exception that crosses `invoke`'s boundary is an `Except.error`; the
executor failure is caught by the code's `try`/`except` and turned into a
result dict.  `if rows:` is Python truthiness, i.e. non-emptiness. -/
def invoke (c : Collab) (user_question : List Char) :
    Except (List Char) ChainResult × Nat × Nat :=
  match c.gen user_question with
  | .error e => (.error e, 1, 0)
  | .ok raw =>
    let sparql_query := normalizeSparql raw
    match c.execQ sparql_query with
    | .error e =>
      (.ok { result := none, error := some e, sparql_query := sparql_query, rows := [] }, 1, 0)
    | .ok results =>
      let rows := results.map formatRow
      let context := pyJoin "\n".data rows
      if rows ≠ [] then
        match c.qa user_question context with
        | .error e => (.error e, 1, 1)
        | .ok answer =>
          (.ok { result := some answer, error := none, sparql_query := sparql_query,
                 rows := rows }, 1, 1)
      else
        (.ok { result := some "No results found.".data, error := none,
               sparql_query := sparql_query, rows := rows }, 1, 0)

/-- A piece of the output of `highlight_term`: either a plain string or an
`annotated_text` tuple `(body, label, color)`. -/
inductive Segment where
  | plain (s : List Char)
  | annot (body : List Char) (label : List Char) (color : List Char)
deriving DecidableEq, Repr

/-- The textual content of a segment (the text the user reads). -/
def segText : Segment → List Char
  | .plain s => s
  | .annot body _ _ => body

/-- `highlight_term(text, term)` from the Streamlit universal-search UI:
find `term` in the lowercased text and split the original text around the
match. -/
def highlight_term (text term : List Char) : List Segment :=
  let lower := pyLower text
  match strFind lower term with
  | some start =>
    let term_text := (text.drop start).take term.length
    [ .plain (text.take start),
      .annot term_text term_text "#ff0".data,
      .plain (text.drop (start + term.length)) ]
  | none => [.plain text]

/-- A string containing a code-fence marker or a backtick character
(the formatting artifacts named by the spec). -/
def hasCodeFenceOrBacktick (s : List Char) : Bool :=
  pyContains s "```sparql".data || pyContains s "```".data || pyContains s "`".data

/-- The resource IRI of the label-resolution example. -/
def agentIRI : List Char := "http://example/agent1".data

/-- A label table in which `agentIRI` carries both a preferred label and a
different name value. -/
def exampleLabels : List ((List Char × List Char) × List Char) :=
  [((agentIRI, "prefLabel".data), "Shenoute".data),
   ((agentIRI, "name".data), "Besa".data)]

/-- Collaborators whose generation model call fails. -/
def genFailCollab : Collab :=
  { gen := fun _ => .error "model down".data,
    execQ := fun _ => .ok [],
    qa := fun _ _ => .ok "unused".data }

/-- Collaborators whose query executor raises on every query. -/
def execFailCollab : Collab :=
  { gen := fun _ => .ok "SELECT ?s WHERE \x7b ?s ?p ?o \x7d".data,
    execQ := fun _ => .error "bad query".data,
    qa := fun _ _ => .ok "unused".data }

/-- Collaborators whose query executor succeeds with zero rows. -/
def emptyRowsCollab : Collab :=
  { gen := fun _ => .ok "SELECT ?s WHERE \x7b ?s ?p ?o \x7d".data,
    execQ := fun _ => .ok [],
    qa := fun _ _ => .ok "unused".data }

-- Sanity checks (concrete evaluations of the embedding)
example : pyStrip "  ab ".data = "ab".data := by decide
example : pyReplace "a``b".data "`".data [] = "ab".data := by decide
example : normalizeSparql "WHERE \x7b ?s ?p ?o \x7d".data
    = "SELECT * WHERE \x7b ?s ?p ?o \x7d".data := by decide
example : strFind "abcabc".data "ca".data = some 2 := by decide
example : pyJoin " | ".data ["a".data, "b".data, "c".data] = "a | b | c".data := by decide
example : formatRow [RDFValue.resource agentIRI, RDFValue.literal "x".data]
    = "http://example/agent1 | x".data := by decide
example : highlight_term "The Cat".data "cat".data
    = [Segment.plain "The ".data,
       Segment.annot "Cat".data "Cat".data "#ff0".data,
       Segment.plain []] := by decide

/-! ### Helper lemmas about the string primitives -/

/-- A list fixed by `dropWhile` has a head not satisfying the predicate. -/
theorem dw_first_not (l : List Char) (h : l.dropWhile isPySpace = l)
    (c : Char) (t : List Char) (hl : l = c :: t) : isPySpace c = false := by
  subst hl
  by_contra hc
  rw [Bool.not_eq_false] at hc
  rw [List.dropWhile_cons, if_pos hc] at h
  have hsub : (t.dropWhile isPySpace).Sublist t :=
    (List.dropWhile_suffix isPySpace).sublist
  have := hsub.length_le
  rw [h] at this
  simp at this

/-- A prefix of a list fixed by `dropWhile` is itself fixed by `dropWhile`. -/
theorem dw_prefix_eq_self (l pre : List Char) (h : l.dropWhile isPySpace = l)
    (hpre : pre <+: l) : pre.dropWhile isPySpace = pre := by
  cases pre with
  | nil => rfl
  | cons c t =>
    obtain ⟨u, hu⟩ := hpre
    have hc : isPySpace c = false := by
      refine dw_first_not l h c (t ++ u) ?_
      rw [← hu]
      rfl
    rw [List.dropWhile_cons, if_neg (by simp [hc])]

/-- `pyStrip` output is fixed by a leading `dropWhile`. -/
theorem dropWhile_pyStrip (s : List Char) :
    (pyStrip s).dropWhile isPySpace = pyStrip s := by
  refine dw_prefix_eq_self (s.dropWhile isPySpace) _ (List.dropWhile_idempotent _ _) ?_
  have hsuf : ((s.dropWhile isPySpace).reverse.dropWhile isPySpace) <:+
      (s.dropWhile isPySpace).reverse := List.dropWhile_suffix _
  have := List.reverse_prefix.mpr hsuf
  rwa [List.reverse_reverse] at this

/-- `pyStrip` output, reversed, is fixed by `dropWhile`. -/
theorem dropWhile_reverse_pyStrip (s : List Char) :
    (pyStrip s).reverse.dropWhile isPySpace = (pyStrip s).reverse := by
  unfold pyStrip
  rw [List.reverse_reverse]
  exact List.dropWhile_idempotent _ _

/-- A list whose both ends are free of whitespace is fixed by `pyStrip`. -/
theorem pyStrip_eq_self (l : List Char) (h1 : l.dropWhile isPySpace = l)
    (h2 : l.reverse.dropWhile isPySpace = l.reverse) : pyStrip l = l := by
  unfold pyStrip
  rw [h1, h2, List.reverse_reverse]

/-- Python `strip` is idempotent. -/
theorem pyStrip_pyStrip (s : List Char) : pyStrip (pyStrip s) = pyStrip s :=
  pyStrip_eq_self _ (dropWhile_pyStrip s) (dropWhile_reverse_pyStrip s)

/-- `pyStrip` only drops characters. -/
theorem pyStrip_sublist (s : List Char) : (pyStrip s).Sublist s := by
  have h1 : (pyStrip s) <+: s.dropWhile isPySpace := by
    have hsuf : ((s.dropWhile isPySpace).reverse.dropWhile isPySpace) <:+
        (s.dropWhile isPySpace).reverse := List.dropWhile_suffix _
    have := List.reverse_prefix.mpr hsuf
    rwa [List.reverse_reverse] at this
  exact h1.sublist.trans (List.dropWhile_suffix isPySpace).sublist

theorem mem_of_mem_pyStrip {c : Char} {s : List Char} (h : c ∈ pyStrip s) : c ∈ s :=
  (pyStrip_sublist s).mem h

/-- Stripping a string that starts with `"SELECT * "` and ends with a stripped
non-empty tail changes nothing. -/
theorem pyStrip_select_append (s : List Char) (hne : pyStrip s ≠ []) :
    pyStrip ("SELECT * ".data ++ pyStrip s) = "SELECT * ".data ++ pyStrip s := by
  apply pyStrip_eq_self
  · rw [show "SELECT * ".data ++ pyStrip s = 'S' :: ("ELECT * ".data ++ pyStrip s) from rfl]
    rw [List.dropWhile_cons, if_neg (by decide)]
  · rw [List.reverse_append]
    obtain ⟨c, t, hct⟩ : ∃ c t, (pyStrip s).reverse = c :: t := by
      cases hrev : (pyStrip s).reverse with
      | nil =>
        exact absurd (by simpa using congrArg List.reverse hrev) hne
      | cons c t => exact ⟨c, t, rfl⟩
    have hc : isPySpace c = false :=
      dw_first_not _ (dropWhile_reverse_pyStrip s) c t hct
    rw [hct, List.cons_append, List.dropWhile_cons, if_neg (by simp [hc])]

/-- `replaceAux` leaves a string alone when the head of the (non-empty)
pattern never occurs in it. -/
theorem replaceAux_eq_self (h : Char) (tl new : List Char) :
    ∀ (fuel : Nat) (s : List Char), h ∉ s → replaceAux (h :: tl) new fuel s = s := by
  intro fuel
  induction fuel with
  | zero => intro s _; cases s <;> rfl
  | succ n ih =>
    intro s hs
    cases s with
    | nil => rfl
    | cons c rest =>
      have hc : c ≠ h := fun hch => hs (by simp [hch])
      rw [replaceAux, if_neg, ih rest (fun hr => hs (List.mem_cons_of_mem _ hr))]
      rintro ⟨-, hpre⟩
      rcases ( List.isPrefixOf_iff_prefix.mp hpre) with ⟨u, hu⟩
      exact hc (by simpa using congrArg (fun l => l.head?) hu.symm)

/-- Replacing the backtick by the empty string removes every backtick,
given enough fuel. -/
theorem replaceAux_backtick_free :
    ∀ (fuel : Nat) (s : List Char), s.length ≤ fuel →
      backtick ∉ replaceAux [backtick] [] fuel s := by
  intro fuel
  induction fuel with
  | zero =>
    intro s hs
    have : s = [] := List.length_eq_zero.mp (Nat.le_zero.mp hs)
    subst this
    simp [replaceAux]
  | succ n ih =>
    intro s hs
    cases s with
    | nil => simp [replaceAux]
    | cons c rest =>
      have hrest : rest.length ≤ n := by
        simpa using Nat.le_of_succ_le_succ (by simpa using hs)
      by_cases hc : c = backtick
      · have hcond : ([backtick] ≠ []) ∧ ([backtick].isPrefixOf (c :: rest) = true) :=
          ⟨by simp, by simp [List.isPrefixOf, hc]⟩
        rw [replaceAux, if_pos hcond]
        simpa using ih rest hrest
      · rw [replaceAux, if_neg]
        · intro hmem
          rcases List.mem_cons.mp hmem with h | h
          · exact hc h.symm
          · exact ih rest hrest h
        · rintro ⟨-, hpre⟩
          rcases ( List.isPrefixOf_iff_prefix.mp hpre) with ⟨u, hu⟩
          have hbc : backtick = c := by simpa using congrArg (fun l => l.head?) hu
          exact hc hbc.symm

theorem backtick_fence_lang : "```sparql".data = backtick :: "``sparql".data := by decide

theorem backtick_fence : "```".data = backtick :: "``".data := by decide

theorem backtick_single : "`".data = [backtick] := by decide

/-- The cleanup line of `_normalize_sparql` removes every backtick. -/
theorem cleanup_backtick_free (s : List Char) : backtick ∉ cleanupQuery s := by
  unfold cleanupQuery pyReplace
  rw [backtick_single]
  exact replaceAux_backtick_free _ _ (Nat.le_refl _)

/-- On backtick-free input the cleanup line is exactly Python `strip`. -/
theorem cleanup_of_backtick_free (s : List Char) (hs : backtick ∉ s) :
    cleanupQuery s = pyStrip s := by
  have h0 : backtick ∉ pyStrip s := fun h => hs (mem_of_mem_pyStrip h)
  unfold cleanupQuery pyReplace
  rw [backtick_fence_lang, replaceAux_eq_self _ _ _ _ _ h0,
      backtick_fence, replaceAux_eq_self _ _ _ _ _ h0,
      backtick_single]
  exact replaceAux_eq_self _ _ _ _ _ h0

/-- The output of `_normalize_sparql` never contains a backtick. -/
theorem normalize_backtick_free (s : List Char) : backtick ∉ normalizeSparql s := by
  unfold normalizeSparql
  by_cases hw : "WHERE".data.isPrefixOf (pyUpper (cleanupQuery s)) = true
  · simp only [hw, if_true]
    intro hmem
    rcases List.mem_append.mp hmem with h | h
    · revert h; decide
    · exact cleanup_backtick_free s h
  · simp only [Bool.not_eq_true] at hw
    simp only [hw, Bool.false_eq_true, if_false]
    exact cleanup_backtick_free s

/-- A successful `strFind` for a pattern implies its first character occurs
in the haystack. -/
theorem strFind_mem (c : Char) (r : List Char) :
    ∀ (hay : List Char) (i : Nat), strFind hay (c :: r) = some i → c ∈ hay := by
  intro hay
  induction hay with
  | nil =>
    intro i h
    rw [strFind] at h
    rw [if_neg (by simp [List.isPrefixOf])] at h
    exact Option.noConfusion h
  | cons a t ih =>
    intro i h
    by_cases hp : (c :: r).isPrefixOf (a :: t) = true
    · rcases ( List.isPrefixOf_iff_prefix.mp hp) with ⟨u, hu⟩
      have : c = a := by simpa using congrArg (fun l => l.head?) hu
      simp [this]
    · rw [strFind, if_neg (by simpa using hp)] at h
      rcases Option.map_eq_some'.mp h with ⟨j, hj, -⟩
      exact List.mem_cons_of_mem _ (ih j hj)

/-- Containment of a pattern is false when its first character is absent. -/
theorem pyContains_eq_false (q pat : List Char) (c : Char) (r : List Char)
    (hpat : pat = c :: r) (hq : c ∉ q) : pyContains q pat = false := by
  subst hpat
  unfold pyContains
  cases h : strFind q (c :: r) with
  | none => rfl
  | some i => exact absurd (strFind_mem c r q i h) hq

theorem pyUpper_select_star (y : List Char) :
    pyUpper ("SELECT * ".data ++ y) = 'S' :: pyUpper ("ELECT * ".data ++ y) := rfl

theorem where_notPrefix_select (x : List Char) :
    "WHERE".data.isPrefixOf ('S' :: x) = false := by
  simp [List.isPrefixOf]

theorem select_isPrefixOf_select_star (x : List Char) :
    "SELECT".data.isPrefixOf ("SELECT * ".data ++ x) = true := by
  rw [ List.isPrefixOf_iff_prefix]
  have h1 : "SELECT * ".data = "SELECT".data ++ " * ".data := by decide
  rw [h1, List.append_assoc]
  exact List.prefix_append _ _

/-- Unfolding lemma for `normalizeSparql` (zeta-reduced form). -/
theorem normalizeSparql_eq (q : List Char) :
    normalizeSparql q =
      if "WHERE".data.isPrefixOf (pyUpper (cleanupQuery q)) = true
      then "SELECT * ".data ++ cleanupQuery q
      else cleanupQuery q := rfl

/-! ### Claim theorems -/

/-- C1 (counterexample): `_normalize_sparql` is not idempotent.  Removing the
backticks of `"` WHERE ?s ?p ?o`"` happens after `strip()`, exposing a
leading space: the first pass returns `" WHERE ?s ?p ?o"` untouched, while a
second pass strips it and then prepends `"SELECT * "`. -/
theorem normalizeSparql_not_idempotent :
    normalizeSparql (normalizeSparql "` WHERE ?s ?p ?o`".data) ≠
      normalizeSparql "` WHERE ?s ?p ?o`".data := by decide

/-- C1 (amended): `_normalize_sparql` is idempotent on every input that
contains no backtick character; on such input cleanup is just `strip()`,
which is idempotent, and the WHERE-repair branch is stable. -/
theorem normalizeSparql_idem_of_backtick_free (s : List Char)
    (hs : backtick ∉ s) :
    normalizeSparql (normalizeSparql s) = normalizeSparql s := by
  have hclean : cleanupQuery s = pyStrip s := cleanup_of_backtick_free s hs
  have hb1 : backtick ∉ pyStrip s := fun h => hs (mem_of_mem_pyStrip h)
  rw [normalizeSparql_eq s, hclean]
  by_cases hw : "WHERE".data.isPrefixOf (pyUpper (pyStrip s)) = true
  · rw [if_pos hw]
    have hne : pyStrip s ≠ [] := by
      intro h0
      rw [h0] at hw
      exact absurd hw (by decide)
    have hb2 : backtick ∉ "SELECT * ".data ++ pyStrip s := by
      intro hmem
      rcases List.mem_append.mp hmem with h | h
      · revert h; decide
      · exact hb1 h
    rw [normalizeSparql_eq, cleanup_of_backtick_free _ hb2, pyStrip_select_append s hne,
        pyUpper_select_star, where_notPrefix_select, if_neg Bool.false_ne_true]
  · rw [if_neg hw]
    rw [normalizeSparql_eq, cleanup_of_backtick_free _ hb1, pyStrip_pyStrip, if_neg hw]

/-- C1 witness: idempotence at the concrete backtick-free input
`"  select ?s  "`. -/
theorem normalizeSparql_idem_witness :
    normalizeSparql (normalizeSparql "  select ?s  ".data) =
      normalizeSparql "  select ?s  ".data :=
  normalizeSparql_idem_of_backtick_free "  select ?s  ".data (by decide)

/-- C2 (counterexample): the output of `_normalize_sparql` need not begin
with one of SELECT, ASK, CONSTRUCT, DESCRIBE: on input `"hello"` the output
is `"hello"`, so the claimed NormalizedQuery invariant fails. -/
theorem normalizeSparql_keyword_claim_false :
    ¬ (pyContains (normalizeSparql "hello".data) "```".data = false ∧
       pyContains (normalizeSparql "hello".data) "`".data = false ∧
       startsWithQueryKeyword (normalizeSparql "hello".data) = true) := by decide

/-- C2 (amended): for every input, the output of `_normalize_sparql`
contains no code-fence marker and no backtick character, and it begins with
SELECT whenever the cleaned text begins (case-insensitively) with WHERE;
otherwise it is the cleaned text itself, which may begin with anything. -/
theorem normalizeSparql_cleanup_invariants (s : List Char) :
    pyContains (normalizeSparql s) "```sparql".data = false ∧
    pyContains (normalizeSparql s) "```".data = false ∧
    pyContains (normalizeSparql s) "`".data = false ∧
    ("WHERE".data.isPrefixOf (pyUpper (cleanupQuery s)) = true →
      "SELECT".data.isPrefixOf (normalizeSparql s) = true) := by
  refine ⟨?_, ?_, ?_, ?_⟩
  · exact pyContains_eq_false _ _ backtick "``sparql".data backtick_fence_lang
      (normalize_backtick_free s)
  · exact pyContains_eq_false _ _ backtick "``".data backtick_fence
      (normalize_backtick_free s)
  · exact pyContains_eq_false _ _ backtick [] backtick_single
      (normalize_backtick_free s)
  · intro hw
    rw [normalizeSparql_eq, if_pos hw]
    exact select_isPrefixOf_select_star _

/-- C2 witness: the invariants evaluated at `"  where { ?s ?p ?o }"`, whose
cleaned form starts with WHERE, so the output starts with SELECT. -/
theorem normalizeSparql_cleanup_invariants_witness :
    pyContains (normalizeSparql "  where \x7b ?s ?p ?o \x7d".data) "`".data = false ∧
    "SELECT".data.isPrefixOf (normalizeSparql "  where \x7b ?s ?p ?o \x7d".data) = true :=
  ⟨(normalizeSparql_cleanup_invariants "  where \x7b ?s ?p ?o \x7d".data).2.2.1,
   (normalizeSparql_cleanup_invariants "  where \x7b ?s ?p ?o \x7d".data).2.2.2 (by decide)⟩

/-- C7: for every string containing a code-fence marker or a backtick
character, the output of `_normalize_sparql` contains neither. -/
theorem normalizeSparql_removes_backticks (s : List Char)
    (h : hasCodeFenceOrBacktick s = true) :
    hasCodeFenceOrBacktick (normalizeSparql s) = false := by
  have hb := normalize_backtick_free s
  unfold hasCodeFenceOrBacktick
  rw [pyContains_eq_false _ _ backtick "``sparql".data backtick_fence_lang hb,
      pyContains_eq_false _ _ backtick "``".data backtick_fence hb,
      pyContains_eq_false _ _ backtick [] backtick_single hb]
  rfl

/-- C7 witness: evaluation at a fenced generated query. -/
theorem normalizeSparql_removes_backticks_witness :
    hasCodeFenceOrBacktick "```sparql SELECT ?s```".data = true ∧
    hasCodeFenceOrBacktick (normalizeSparql "```sparql SELECT ?s```".data) = false :=
  ⟨by decide, normalizeSparql_removes_backticks "```sparql SELECT ?s```".data (by decide)⟩

/-- C8: WHERE-prefix repair.  A query starting with `WHERE` gets the
`SELECT * ` prefix; the check is case-insensitive and applies after leading
whitespace is stripped; a query already starting with `SELECT` is returned
unchanged. -/
theorem normalizeSparql_where_prefix_repair :
    "SELECT * WHERE".data.isPrefixOf
        (normalizeSparql "WHERE \x7b ?s ?p ?o \x7d".data) = true ∧
    "SELECT * ".data.isPrefixOf
        (normalizeSparql "  where \x7b?s ?p ?o\x7d".data) = true ∧
    normalizeSparql "SELECT ?s WHERE \x7b...\x7d".data
        = "SELECT ?s WHERE \x7b...\x7d".data := by decide

/-- C3 (counterexample): no label resolution happens when formatting a
result row.  The resource `agentIRI` carries a preferred label
`"Shenoute"` and a different name `"Besa"` (as `specResolveValue` on
`exampleLabels` shows the spec-described formatter would return
`"Shenoute"`), yet the code's `formatRow` output is the raw identifier and
does not contain the preferred-label value. -/
theorem formatRow_no_label_resolution :
    specResolveValue exampleLabels (RDFValue.resource agentIRI) = "Shenoute".data ∧
    "Shenoute".data ≠ "Besa".data ∧
    formatRow [RDFValue.resource agentIRI] = agentIRI ∧
    pyContains (formatRow [RDFValue.resource agentIRI]) "Shenoute".data = false := by
  refine ⟨by decide, by decide, by decide, by decide⟩

/-- C3 (amended): formatting renders each bound value by its raw textual
form (Python `str`); a resource identifier is rendered as its raw IRI text,
with no label lookup, so for a resource carrying both a preferred label and
a name the formatted output is the raw identifier. -/
theorem formatRow_resource_raw (u : List Char) :
    formatRow [RDFValue.resource u] = u := rfl

/-- C4 (counterexample): a failure of the query-generation model call
crosses `invoke`'s boundary as a raised exception (`Except.error`), not as
a structured ChainResult. -/
theorem invoke_gen_failure_raises :
    (invoke genFailCollab "who wrote it".data).1 =
      Except.error "model down".data := rfl

/-- C4 (amended): only a query-execution failure is converted into a
structured ChainResult; a failure of the generation model call propagates
out of `invoke` as a raised exception. -/
theorem invoke_error_paths (c : Collab) (q e : List Char) :
    (c.gen q = .error e → (invoke c q).1 = .error e) ∧
    (∀ raw, c.gen q = .ok raw → c.execQ (normalizeSparql raw) = .error e →
      (invoke c q).1 = .ok { result := none, error := some e,
                             sparql_query := normalizeSparql raw, rows := [] }) := by
  constructor
  · intro h
    simp [invoke, h]
  · intro raw h1 h2
    simp [invoke, h1, h2]

/-- C4 witness: the generation-failure arm at a concrete collaborator. -/
theorem invoke_error_paths_witness :
    (invoke genFailCollab "q".data).1 = Except.error "model down".data :=
  (invoke_error_paths genFailCollab "q".data "model down".data).1 rfl

/-- C5: when the executor raises on the normalized query, `invoke` returns
a ChainResult with `result = None`, the raised error's message, an empty
row list and the normalized query that failed, and the answer-synthesis
model is not invoked (its call count is 0). -/
theorem invoke_executor_failure (c : Collab) (q raw e : List Char)
    (h1 : c.gen q = .ok raw)
    (h2 : c.execQ (normalizeSparql raw) = .error e) :
    invoke c q = (.ok { result := none, error := some e,
                        sparql_query := normalizeSparql raw, rows := [] }, 1, 0) := by
  simp [invoke, h1, h2]

/-- C5 witness: the executor-failure path at a concrete collaborator. -/
theorem invoke_executor_failure_witness :
    invoke execFailCollab "question".data =
      (.ok { result := none, error := some "bad query".data,
             sparql_query := normalizeSparql "SELECT ?s WHERE \x7b ?s ?p ?o \x7d".data,
             rows := [] }, 1, 0) :=
  invoke_executor_failure execFailCollab "question".data _ _ rfl rfl

/-- C6: when execution succeeds with zero rows, the answer-synthesis model
is not invoked (its call count is 0) and the answer equals the fixed
fallback string `"No results found."`. -/
theorem invoke_empty_rows (c : Collab) (q raw : List Char)
    (h1 : c.gen q = .ok raw)
    (h2 : c.execQ (normalizeSparql raw) = .ok []) :
    invoke c q = (.ok { result := some "No results found.".data, error := none,
                        sparql_query := normalizeSparql raw, rows := [] }, 1, 0) := by
  simp [invoke, h1, h2]

/-- C6 witness: the empty-result path at a concrete collaborator. -/
theorem invoke_empty_rows_witness :
    invoke emptyRowsCollab "question".data =
      (.ok { result := some "No results found.".data, error := none,
             sparql_query := normalizeSparql "SELECT ?s WHERE \x7b ?s ?p ?o \x7d".data,
             rows := [] }, 1, 0) :=
  invoke_empty_rows emptyRowsCollab "question".data _ rfl rfl

/-- C9: within one call of `invoke` the query-generation model is invoked
exactly once on every path (including the execution-failure path, where no
retry happens), and the answer-synthesis model at most once: the pipeline
is strictly linear. -/
theorem invoke_generator_called_once (c : Collab) (q : List Char) :
    (invoke c q).2.1 = 1 ∧ (invoke c q).2.2 ≤ 1 := by
  rcases hg : c.gen q with e | raw
  · simp [invoke, hg]
  · rcases he : c.execQ (normalizeSparql raw) with e2 | results
    · simp [invoke, hg, he]
    · by_cases hr : results = []
      · simp [invoke, hg, he, hr]
      · rcases hq : c.qa q (pyJoin "\n".data (results.map formatRow)) with e3 | ans <;>
          simp [invoke, hg, he, hr, hq]

/-- C10: `highlight_term` preserves the text: the textual contents of the
returned segments concatenate to the original text, and when the lowercased
text does not contain the term the result is the single untouched element. -/
theorem highlight_term_preserves_text (text term : List Char) :
    ((highlight_term text term).map segText).flatten = text ∧
    (pyContains (pyLower text) term = false →
      highlight_term text term = [Segment.plain text]) := by
  cases h : strFind (pyLower text) term with
  | none => simp [highlight_term, h, segText]
  | some start =>
    constructor
    · have hd : List.drop (start + term.length) text =
          List.drop term.length (List.drop start text) := by
        rw [List.drop_drop]
      simp only [highlight_term, h, List.map, segText, List.flatten_cons,
        List.flatten_nil, List.append_nil, hd]
      rw [List.take_append_drop, List.take_append_drop]
    · intro hc
      rw [pyContains, h] at hc
      exact absurd hc (by simp)

/-- C10 witness: the not-found branch at a concrete text and term. -/
theorem highlight_term_preserves_text_witness :
    highlight_term "Hello".data "zz".data = [Segment.plain "Hello".data] :=
  (highlight_term_preserves_text "Hello".data "zz".data).2 (by decide)

end CopticViewer
